import Mathlib

/-!
# Verification of the Telecom-Churn dashboard's segmented aggregation pipeline

Shallow embedding of the filter / segment / aggregate / flag / rank pipeline
that the Streamlit pages of the repository re-implement ad hoc
(`Pages/Demographic.py`, `Pages/Geographic.py`, `Pages/Services.py`,
`Pages/Financial.py`, `pages/Billing.py`), together with proofs of the
spec-level properties (conservation, partition, binning edge cases, outlier
fences, ranking, rate bounds, source-table immutability).

Tables are lists of `Customer` records; pandas boolean masks become lists of
`Bool`; `groupby` becomes an explicit key-partition; rates use exact rational
arithmetic with the same rounding the source applies.
-/

/-- The `Customer Status` column: the dataset labels every row with exactly
one of the three values (spec data-model invariant). -/
inductive Status where
  | Churned
  | Stayed
  | Joined
deriving DecidableEq, Repr

/-- One row of the loaded record table.  Fields are the columns the pipeline
reads.  `married_gender` models the `Married_Gender` column which is absent
at load time (`none`) and materialised by `Pages/Demographic.py:193`; a
`none` cell stringifies to `"nan"` exactly like a pandas NaN under
`astype(str)`. -/
structure Customer where
  age : Int
  gender : String
  married : String
  persona : String
  dependents : Int
  status : Status
  state : String
  city : String
  churn : Int
  phoneService : String
  internetService : String
  contract : String
  paymentMethod : String
  currentMonthlyCharge : ℚ
  avgMonthlyCharge : ℚ
  totalRefunds : ℚ
  totalCharges : ℚ
  netRevenue : ℚ
  married_gender : Option String := none
deriving DecidableEq, Repr

/-! ## Filtering (`Pages/Demographic.py:98-109`, `pages/Billing.py:48-52`)

The source builds one boolean Series per filter widget, combines them with
`np.all(filter_conditions, axis=0)` (Demographic) or chained `&` (Billing),
and selects rows by the resulting boolean mask. -/

/-- Select the rows of `l` whose position in the boolean mask is `true`
(`df[mask]` row selection). -/
def maskSelect {α : Type} : List α → List Bool → List α
  | [], _ => []
  | _, [] => []
  | r :: rs, b :: bs => if b then r :: maskSelect rs bs else maskSelect rs bs

/-- `np.all(conds, axis=0)`: position-wise conjunction of a non-empty list of
boolean masks. -/
def npAll : List (List Bool) → List Bool
  | [] => []
  | [m] => m
  | m :: ms => List.zipWith (· && ·) m (npAll ms)

/-- The boolean filter conditions of `Pages/Demographic.py:98-107`: age range,
`isin` masks for gender, customer status, marital status, dependents, and —
only when the persona selection is non-empty — an `isin` mask for persona
(the source appends that condition under `len(persona_filter) > 0`). -/
def demoConds (minAge maxAge : Int) (gF : List String) (pF : List String)
    (stF : List Status) (mF : List String) (dF : List Int)
    (l : List Customer) : List (List Bool) :=
  [l.map (fun r => decide (minAge ≤ r.age) && decide (r.age ≤ maxAge)),
   l.map (fun r => decide (r.gender ∈ gF)),
   l.map (fun r => decide (r.status ∈ stF)),
   l.map (fun r => decide (r.married ∈ mF)),
   l.map (fun r => decide (r.dependents ∈ dF))] ++
    (if pF = [] then [] else [l.map (fun r => decide (r.persona ∈ pF))])

/-- `filtered_df` of `Pages/Demographic.py:109`. -/
def demo_filtered_df (minAge maxAge : Int) (gF : List String) (pF : List String)
    (stF : List Status) (mF : List String) (dF : List Int)
    (l : List Customer) : List Customer :=
  maskSelect l (npAll (demoConds minAge maxAge gF pF stF mF dF l))

/-- The row predicate the Demographic filter actually implements: the
conjunction of all masks, with the persona clause vacuous when the persona
selection is empty. -/
def demoPred (minAge maxAge : Int) (gF : List String) (pF : List String)
    (stF : List Status) (mF : List String) (dF : List Int)
    (r : Customer) : Bool :=
  decide (minAge ≤ r.age) && decide (r.age ≤ maxAge) &&
    decide (r.gender ∈ gF) && decide (r.status ∈ stF) &&
    decide (r.married ∈ mF) && decide (r.dependents ∈ dF) &&
    (decide (pF = []) || decide (r.persona ∈ pF))

/-- `df_filtered` of `pages/Billing.py:48-52`: conjunction of three `isin`
masks (customer status, contract type, payment method) combined with `&`. -/
def billing_df_filtered (stF : List Status) (cF : List String)
    (pyF : List String) (l : List Customer) : List Customer :=
  maskSelect l
    (List.zipWith (· && ·)
      (List.zipWith (· && ·)
        (l.map (fun r => decide (r.status ∈ stF)))
        (l.map (fun r => decide (r.contract ∈ cF))))
      (l.map (fun r => decide (r.paymentMethod ∈ pyF))))

/-! ## Numeric binning (`Pages/Demographic.py:244-248`)

`pd.cut(ages, bins=[18,20,...,100,inf], labels=[...], right=False,
include_lowest=True)`: intervals are left-closed, right-open; the last edge
is `np.inf`.  A value below the first edge gets NaN (here `none`). -/

/-- A `pd.cut` bin edge: a finite number or `np.inf`. -/
inductive BinEdge where
  | val (q : ℚ)
  | posInf
deriving DecidableEq, Repr

/-- `e ≤ x` for a bin edge (used on the left end of an interval). -/
def edgeLE (e : BinEdge) (x : ℚ) : Bool :=
  match e with
  | .val q => decide (q ≤ x)
  | .posInf => false

/-- `x < e` for a bin edge (used on the right end of an interval). -/
def ltEdge (x : ℚ) (e : BinEdge) : Bool :=
  match e with
  | .val q => decide (x < q)
  | .posInf => true

/-- `pd.cut(·, bins, labels, right=False, include_lowest=True)` on one value:
walk consecutive edge pairs, put `x` in the first interval `[e_i, e_{i+1})`
containing it; out of all ranges gives `none` (NaN). -/
def pdCutRightFalse : List BinEdge → List String → ℚ → Option String
  | e1 :: e2 :: es, lab :: labs, x =>
      if edgeLE e1 x && ltEdge x e2 then some lab
      else pdCutRightFalse (e2 :: es) labs x
  | _, _, _ => none

/-- `bins` of `Pages/Demographic.py:244`. -/
def ageBins : List BinEdge :=
  [.val 18, .val 20, .val 30, .val 40, .val 50, .val 60, .val 70, .val 80,
   .val 90, .val 100, .posInf]

/-- `labels` of `Pages/Demographic.py:245`. -/
def ageLabels : List String :=
  ["18", "20", "30", "40", "50", "60", "70", "80", "90", "100+"]

/-- The finite bin edges, as the numeric values a record's age can equal. -/
def ageEdgeVals : List ℚ := [18, 20, 30, 40, 50, 60, 70, 80, 90, 100]

/-- `Age_cluster_cut` of `Pages/Demographic.py:248`. -/
def Age_cluster_cut (age : ℚ) : Option String :=
  pdCutRightFalse ageBins ageLabels age

/-! ## Derived keys and the segmenter

`Pages/Demographic.py:193` builds `Married_Gender`, lines 249-251 build the
composite `aggre` key (with `astype(str)` turning a NaN bin into the string
`"nan"`), and lines 253-254 group by it.  `Pages/Services.py:30-32` builds
`ser_class` by a dict `map` whose unmatched inputs become NaN. -/

/-- `replace({'Yes': 'Married', 'No': 'Single'})` on the `Married` column
(`Pages/Demographic.py:193`); other values pass through unchanged. -/
def marriedLabel (m : String) : String :=
  if m = "Yes" then "Married" else if m = "No" then "Single" else m

/-- The in-place column assignment of `Pages/Demographic.py:193`:
`filtered_df['Married_Gender'] = married.replace({...}) + ' | ' + gender`. -/
def withMarriedGender (l : List Customer) : List Customer :=
  l.map (fun r => { r with married_gender := some (marriedLabel r.married ++ " | " ++ r.gender) })

/-- `astype(str)` of the `Married_Gender` cell: a NaN cell prints `"nan"`. -/
def marriedGenderStr (r : Customer) : String :=
  match r.married_gender with
  | some s => s
  | none => "nan"

/-- `astype(str)` of the `Age_cluster_cut` cell (`Pages/Demographic.py:250`):
the categorical label, or `"nan"` when the age is out of all bins. -/
def ageClusterStr (r : Customer) : String :=
  match Age_cluster_cut (r.age : ℚ) with
  | some s => s
  | none => "nan"

/-- The composite `aggre` key of `Pages/Demographic.py:249-251`. -/
def aggre (r : Customer) : String :=
  marriedGenderStr r ++ " | " ++ ageClusterStr r ++ " | " ++
    toString r.dependents ++ " | "

/-- `Demo_df` of `Pages/Demographic.py:247`: a copy of the filtered table
(whose `Married_Gender` column was materialised at line 193). -/
def Demo_df (l : List Customer) : List Customer := withMarriedGender l

/-- Add row `r` under key `k` to a key-partition: append to the existing
group for `k`, or open a new group at the end. -/
def addToGroups (k : String) (r : Customer) :
    List (String × List Customer) → List (String × List Customer)
  | [] => [(k, [r])]
  | (k', g) :: gs =>
      if k' = k then (k', r :: g) :: gs else (k', g) :: addToGroups k r gs

/-- `df.groupby(key)`: partition the rows by their key value.  Group order is
irrelevant to every property proved below (pandas sorts keys; we keep
first-seen order). -/
def groupByKey (key : Customer → String) : List Customer → List (String × List Customer)
  | [] => []
  | r :: t => addToGroups (key r) r (groupByKey key t)

/-- `ser_class` of `Pages/Services.py:31-32`: `'Phone Service' + ' | ' +
'Internet Service'` pushed through the dict map; an input outside the dict
becomes NaN (`none`). -/
def ser_class (r : Customer) : Option String :=
  let raw := r.phoneService ++ " | " ++ r.internetService
  if raw = "Yes | Yes" then some "Both"
  else if raw = "Yes | No" then some "Phone Only"
  else if raw = "No | Yes" then some "Internet Only"
  else none

/-- The Services page filter (`Pages/Services.py:46-49`): persona `isin` and
`ser_class` `isin`; a NaN `ser_class` is never `isin` a list of strings. -/
def services_filtered_df (selP selS : List String) (l : List Customer) : List Customer :=
  l.filter (fun r =>
    decide (r.persona ∈ selP) &&
      (match ser_class r with
       | some s => decide (s ∈ selS)
       | none => false))

/-! ## Aggregation (`Pages/Demographic.py:253-255`, `Pages/Geographic.py:66-71`,
`Pages/Financial.py:29-38`)

`groupby(key)['Customer Status'].value_counts().unstack(fill_value=0)` gives
one count per status per group (missing statuses count 0); `sum(axis=1)`
gives `Total`.  Because every row carries exactly one of the three statuses,
the row sum over status columns equals the three counts added. -/

/-- Count the group members with status `s`. -/
def statusCount (s : Status) (g : List Customer) : ℕ :=
  g.countP (fun r => decide (r.status = s))

/-- One row of the per-group summary: key, per-status counts, `Total`. -/
structure SummaryRow where
  key : String
  churned : ℕ
  stayed : ℕ
  joined : ℕ
  total : ℕ
deriving DecidableEq, Repr

/-- Build the summary row of one group (`value_counts().unstack(fill_value=0)`
plus `Total = sum(axis=1)`). -/
def mkSummaryRow (k : String) (g : List Customer) : SummaryRow :=
  ⟨k, statusCount .Churned g, statusCount .Stayed g, statusCount .Joined g,
   statusCount .Churned g + statusCount .Stayed g + statusCount .Joined g⟩

/-- The count part of `churn_summary` (`Pages/Demographic.py:253-254`),
computed over `Demo_df` (the filtered table with its derived columns). -/
def churn_summary (l : List Customer) : List SummaryRow :=
  (groupByKey aggre (Demo_df l)).map (fun p => mkSummaryRow p.1 p.2)

/-- `round(1)` on an exact rational (`Series.round(1)`). -/
def round1 (x : ℚ) : ℚ := (round (10 * x) : ℤ) / 10

/-- `round(3)` on an exact rational (`Series.round(3)`). -/
def round3 (x : ℚ) : ℚ := (round (1000 * x) : ℤ) / 1000

/-- The `Churn%` cell of `Pages/Demographic.py:255`:
`(Churned / Total * 100).round(1)`. -/
def churnPct (c t : ℕ) : ℚ := round1 ((c : ℚ) / (t : ℚ) * 100)

/-- `churn_summary` together with its `Churn%` column
(`Pages/Demographic.py:253-255`).  Line 255 selects the column `'Churned'`,
which exists only when some row of `Demo_df` is churned; on a table with no
churned row (in particular an empty filtered table) the selection raises
`KeyError: 'Churned'`, modelled as `Except.error`. -/
def churn_summary_full (l : List Customer) :
    Except String (List (SummaryRow × ℚ)) :=
  if (Demo_df l).any (fun r => decide (r.status = Status.Churned)) then
    .ok ((churn_summary l).map (fun row => (row, churnPct row.churned row.total)))
  else
    .error "KeyError: 'Churned'"

/-- One row of the Geographic city summary (`Pages/Geographic.py:66-71`):
counts, `total`, the three rates rounded to 3 decimals, and the outlier flag
columns which do not exist (`none`) until `flag_outliers` assigns them. -/
structure CityRow where
  city : String
  churned : ℕ
  stayed : ℕ
  joined : ℕ
  total : ℕ
  churn_rate : ℚ
  stayed_rate : ℚ
  joined_rate : ℚ
  out_low : Option ℕ := none
  out_high : Option ℕ := none
deriving DecidableEq, Repr

/-- Build one row of `city_df`.  `city_df.get('Churned', 0)` yields the
per-group count when the column exists and the scalar 0 when no filtered row
has that status; in both cases the cell value equals the group's count. -/
def mkCityRow (k : String) (g : List Customer) : CityRow :=
  let c := statusCount .Churned g
  let s := statusCount .Stayed g
  let j := statusCount .Joined g
  let t := c + s + j
  ⟨k, c, s, j, t,
   round3 ((c : ℚ) / (t : ℚ)), round3 ((s : ℚ) / (t : ℚ)),
   round3 ((j : ℚ) / (t : ℚ)), none, none⟩

/-- `city_df` of `Pages/Geographic.py:66-71` (before outlier flagging). -/
def city_df (l : List Customer) : List CityRow :=
  (groupByKey (fun r => r.city) l).map (fun p => mkCityRow p.1 p.2)

/-! ## Financial summary (`Pages/Financial.py:29-38`)

`fin_sum = df.groupby('Customer Status')[features].sum().round(1).T`, so one
row per monetary feature with one column per status present in the table;
`total = sum(axis=1)`, then `Recover% / old% / loss%` divide a status column
(`.get(..., 0)`) by `total`, and `active% = 100 - loss%`.  A rate over a zero
`total` is undefined (pandas NaN), modelled as `none`. -/

/-- The rounded per-status sum of a monetary column `f`
(`groupby('Customer Status')[f].sum().round(1)`). -/
def statusSum (f : Customer → ℚ) (s : Status) (l : List Customer) : ℚ :=
  round1 (((l.filter (fun r => decide (r.status = s))).map f).sum)

/-- Whether the status column exists in `fin_sum` (some row has status `s`). -/
def hasStatus (s : Status) (l : List Customer) : Bool :=
  l.any (fun r => decide (r.status = s))

/-- `fin_sum.get(s, 0)`: the status column when present, the scalar 0
otherwise. -/
def finGet (f : Customer → ℚ) (s : Status) (l : List Customer) : ℚ :=
  if hasStatus s l then statusSum f s l else 0

/-- `fin_sum['total'] = fin_sum.sum(axis=1)`: the sum over the status columns
present in the table, which equals the sum of the three `finGet` values. -/
def finTotal (f : Customer → ℚ) (l : List Customer) : ℚ :=
  finGet f .Churned l + finGet f .Stayed l + finGet f .Joined l

/-- `((num / total) * 100).round(1)`, undefined (`none`) when `total = 0`. -/
def pctOfTotal (num den : ℚ) : Option ℚ :=
  if den = 0 then none else some (round1 (num / den * 100))

/-- `fin_sum['Recover%']` (`Pages/Financial.py:35`). -/
def recoverPct (f : Customer → ℚ) (l : List Customer) : Option ℚ :=
  pctOfTotal (finGet f .Joined l) (finTotal f l)

/-- `fin_sum['old%']` (`Pages/Financial.py:36`). -/
def oldPct (f : Customer → ℚ) (l : List Customer) : Option ℚ :=
  pctOfTotal (finGet f .Stayed l) (finTotal f l)

/-- `fin_sum['loss%']` (`Pages/Financial.py:37`). -/
def lossPct (f : Customer → ℚ) (l : List Customer) : Option ℚ :=
  pctOfTotal (finGet f .Churned l) (finTotal f l)

/-- `fin_sum['active%'] = 100 - fin_sum['loss%']` (`Pages/Financial.py:38`). -/
def activePct (f : Customer → ℚ) (l : List Customer) : Option ℚ :=
  (lossPct f l).map (fun v => 100 - v)

/-! ## Ranker (`Pages/Geographic.py:82`, `Pages/Demographic.py:268-273`)

`top_20_df = city_df.sort_values("total", ascending=False).head(20)` and the
Demographic display sort pass no `kind` argument, so pandas sorts with its
default `kind='quicksort'`.  That call guarantees only that the result is a
permutation of the rows, descending in the metric; it does not specify the
relative order of rows with equal metric (only `kind='stable'` or
`kind='mergesort'` would).  `head(N)` then keeps the first `N` rows of
whatever order the sort produced.  The sort is therefore embedded as the
relation between input and admissible outputs rather than as one function. -/

/-- The contract of `sort_values(metric, ascending=False)` with the default
`kind='quicksort'` at the ranker call sites: `out` is a permutation of
`rows` that is descending in the metric.  Tie order is not constrained. -/
def IsSortValuesDesc {α : Type} (metric : α → ℚ) (rows out : List α) : Prop :=
  List.Perm out rows ∧ out.Pairwise (fun a b => metric b ≤ metric a)

/-! ## Outlier flagger (`Pages/Geographic.py:146-156` and 316-326)

`flag_outliers(df, col_name)` computes Q1 and Q3 of the column with pandas'
default linear-interpolation quantile, the IQR fences with multiplier 1.5,
and assigns integer flag columns `out_low = (col < lower)` and
`out_high = (col > upper)`. -/

/-- Linear interpolation into a sorted list at fractional position `p`
(out-of-range indices fall back shared defaults, reached only for degenerate
inputs). -/
def interpAt (s : List ℚ) (p : ℚ) : ℚ :=
  let f : ℤ := ⌊p⌋
  let a := s.getD f.toNat 0
  let b := s.getD (f.toNat + 1) a
  a + (p - (f : ℚ)) * (b - a)

/-- `Series.quantile(q)` with the default linear interpolation: sort the
values and interpolate at position `q * (n - 1)`. -/
def quantileLin (l : List ℚ) (q : ℚ) : ℚ :=
  interpAt (List.insertionSort (· ≤ ·) l) (q * ((l.length : ℚ) - 1))

/-- `flag_outliers` generalised over the IQR multiplier (the source fixes
`k = 1.5`); `value` is the tested column (`col_name='total'` at both call
sites).  Fences are recomputed from the rows passed in on every call. -/
def flag_outliersK (value : CityRow → ℚ) (k : ℚ) (rows : List CityRow) :
    List CityRow :=
  let q1 := quantileLin (rows.map value) (1 / 4)
  let q3 := quantileLin (rows.map value) (3 / 4)
  let iqr := q3 - q1
  let lower := q1 - k * iqr
  let upper := q3 + k * iqr
  rows.map (fun r =>
    { r with out_low := some (if value r < lower then 1 else 0),
             out_high := some (if upper < value r then 1 else 0) })

/-- `flag_outliers` exactly as in the source, with its multiplier 1.5. -/
def flag_outliers (value : CityRow → ℚ) (rows : List CityRow) : List CityRow :=
  flag_outliersK value (3 / 2) rows

/-! ## Geographic load and filters (`Pages/Geographic.py:20-27` and 54-55) -/

/-- The `Churn` recode of `Pages/Geographic.py:24`: `replace({2: 0})` on one
row's `Churn` cell, all other cells untouched. -/
def churnFix (r : Customer) : Customer :=
  { r with churn := if r.churn = 2 then 0 else r.churn }

/-- `map_df` of `Pages/Geographic.py:23-24`: a copy of the table with the
`Churn` column recoded. -/
def map_df_of (l : List Customer) : List Customer := l.map churnFix

/-- The State/City row predicate of `Pages/Geographic.py:54-55`. -/
def geoPred (sts cts : List String) (r : Customer) : Bool :=
  decide (r.state ∈ sts) && decide (r.city ∈ cts)

/-- `filtered_df` of `Pages/Geographic.py:54`. -/
def geo_filtered_df (sts cts : List String) (l : List Customer) : List Customer :=
  l.filter (geoPred sts cts)

/-- `filtered_map_df` of `Pages/Geographic.py:55`: the same State/City mask
applied to `map_df`. -/
def filtered_map_df (sts cts : List String) (l : List Customer) : List Customer :=
  (map_df_of l).filter (geoPred sts cts)

/-! ## Object identity and the page pipelines (frame property)

Pandas distinguishes operations that allocate a new frame (boolean-mask
selection, `.copy()`, `groupby` aggregation) from operations that write into
an existing frame (column assignment such as `df['out_low'] = ...` inside
`flag_outliers`, or `filtered_df['Married_Gender'] = ...`).  We track this
with an allocation identifier: a fresh table gets a fresh `oid`, an in-place
write keeps the `oid` of its input while changing the contents. -/

/-- A Python object: an allocation identity plus current contents. -/
structure Obj (α : Type) where
  oid : ℕ
  val : α
deriving DecidableEq, Repr

/-- `.copy()`: same contents under a fresh identity. -/
def copyObj {α : Type} (o : Obj α) (fresh : ℕ) : Obj α := ⟨fresh, o.val⟩

/-- The call `flag_outliers(city_df, col_name='total')`
(`Pages/Geographic.py:156`): the function assigns the two flag columns on
the very frame it receives and returns it, so the result keeps the input's
identity with changed contents. -/
def flag_outliers_call (o : Obj (List CityRow)) : Obj (List CityRow) :=
  ⟨o.oid, flag_outliers (fun r => (r.total : ℚ)) o.val⟩

/-- The column assignment `filtered_df['Married_Gender'] = ...`
(`Pages/Demographic.py:193`): writes into the existing frame. -/
def married_gender_assign (o : Obj (List Customer)) : Obj (List Customer) :=
  ⟨o.oid, withMarriedGender o.val⟩

/-- The variables of the Geographic page after the tab-1 pipeline ran. -/
structure GeoVars where
  df : Obj (List Customer)
  map_df : Obj (List Customer)
  filtered_df : Obj (List Customer)
  filtered_map_df : Obj (List Customer)
  city_df : Obj (List CityRow)

/-- The Geographic pipeline (`Pages/Geographic.py:20-27`, 54-55, 66-71, 156)
from the loaded table: `map_df` is a fresh copy whose `Churn` column is then
recoded in place; the two filtered frames and the `city_df` aggregate are
fresh; `flag_outliers` then mutates `city_df` in place. -/
def geoPipeline (src : Obj (List Customer)) (sts cts : List String) : GeoVars :=
  let map0 : Obj (List Customer) := ⟨src.oid + 1, map_df_of src.val⟩
  let fd : Obj (List Customer) := ⟨src.oid + 2, geo_filtered_df sts cts src.val⟩
  let fmd : Obj (List Customer) := ⟨src.oid + 3, map0.val.filter (geoPred sts cts)⟩
  let c0 : Obj (List CityRow) := ⟨src.oid + 4, city_df fd.val⟩
  { df := src, map_df := map0, filtered_df := fd, filtered_map_df := fmd,
    city_df := flag_outliers_call c0 }

/-- The variables of the Demographic page after filtering, the
`Married_Gender` assignment, and the `Demo_df` copy. -/
structure DemoVars where
  df : Obj (List Customer)
  filtered_df : Obj (List Customer)
  demo_df : Obj (List Customer)

/-- The Demographic pipeline (`Pages/Demographic.py:98-109`, 193, 247): the
filter allocates a fresh frame, line 193 writes the `Married_Gender` column
into it in place, and `Demo_df = filtered_df.copy()` is fresh again. -/
def demoPipeline (src : Obj (List Customer)) (minAge maxAge : Int)
    (gF pF : List String) (stF : List Status) (mF : List String)
    (dF : List Int) : DemoVars :=
  let fd0 : Obj (List Customer) :=
    ⟨src.oid + 1, demo_filtered_df minAge maxAge gF pF stF mF dF src.val⟩
  let fd1 := married_gender_assign fd0
  { df := src, filtered_df := fd1, demo_df := copyObj fd1 (src.oid + 2) }

/-! ## Concrete sample data for counterexamples and witnesses -/

/-- A 30-year-old married male customer who stayed, subscribing to both
services. -/
def sampleStayed : Customer :=
  { age := 30, gender := "Male", married := "Yes", persona := "Loyal",
    dependents := 0, status := .Stayed, state := "California",
    city := "Los Angeles", churn := 0, phoneService := "Yes",
    internetService := "Yes", contract := "Month-to-Month",
    paymentMethod := "Credit Card", currentMonthlyCharge := 50,
    avgMonthlyCharge := 50, totalRefunds := 0, totalCharges := 100,
    netRevenue := 100 }

/-- A 17-year-old customer: the age is below the lowest bin edge, so
`Age_cluster_cut` is NaN for this row. -/
def sampleMinor : Customer :=
  { sampleStayed with age := 17, status := .Churned }

/-- A churned customer whose net revenue is negative (refunds exceeded
charges). -/
def sampleNegRevenue : Customer :=
  { sampleStayed with
    status := .Churned
    netRevenue := -10
    totalRefunds := 30
    totalCharges := 20 }

/-- A stayed customer with positive net revenue, to pair with
`sampleNegRevenue`. -/
def samplePosRevenue : Customer :=
  { sampleStayed with netRevenue := 20 }

/-- A city-summary row whose flag columns have not been assigned yet. -/
def sampleCityRow : CityRow :=
  { city := "Los Angeles", churned := 1, stayed := 1, joined := 1, total := 3,
    churn_rate := 333/1000, stayed_rate := 333/1000, joined_rate := 333/1000 }

/-- A concrete `city_df` object before the `flag_outliers` call. -/
def sampleCityObj : Obj (List CityRow) := ⟨7, [sampleCityRow]⟩

/-- A second city-summary row, tied with `sampleCityRow` on `total`. -/
def sampleCityRowB : CityRow :=
  { sampleCityRow with city := "Burbank" }

/-! # Lemmas -/

theorem maskSelect_map {α : Type} (p : α → Bool) (l : List α) :
    maskSelect l (l.map p) = l.filter p := by
  induction l with
  | nil => rfl
  | cons r t ih =>
      by_cases h : p r = true
      · simp [maskSelect, List.filter_cons, h, ih]
      · simp [maskSelect, List.filter_cons, h, ih]

theorem zipWith_and_map {α : Type} (p q : α → Bool) (l : List α) :
    List.zipWith (· && ·) (l.map p) (l.map q) = l.map (fun x => p x && q x) := by
  induction l with
  | nil => rfl
  | cons r t ih => simp [List.zipWith, ih]

theorem npAll_demoConds (minAge maxAge : Int) (gF pF : List String)
    (stF : List Status) (mF : List String) (dF : List Int) (l : List Customer) :
    npAll (demoConds minAge maxAge gF pF stF mF dF l) =
      l.map (demoPred minAge maxAge gF pF stF mF dF) := by
  by_cases hp : pF = []
  · simp only [demoConds, hp, if_pos rfl, List.append_nil, npAll,
      zipWith_and_map]
    apply List.map_congr_left
    intro r _
    simp [demoPred, hp, Bool.and_assoc]
  · simp only [demoConds, if_neg hp, npAll, List.cons_append, List.nil_append,
      zipWith_and_map]
    apply List.map_congr_left
    intro r _
    simp [demoPred, hp, Bool.and_assoc]

theorem demo_filtered_df_eq_filter (minAge maxAge : Int) (gF pF : List String)
    (stF : List Status) (mF : List String) (dF : List Int) (l : List Customer) :
    demo_filtered_df minAge maxAge gF pF stF mF dF l =
      l.filter (demoPred minAge maxAge gF pF stF mF dF) := by
  rw [demo_filtered_df, npAll_demoConds, maskSelect_map]

theorem billing_df_filtered_eq_filter (stF : List Status) (cF pyF : List String)
    (l : List Customer) :
    billing_df_filtered stF cF pyF l =
      l.filter (fun r =>
        (decide (r.status ∈ stF) && decide (r.contract ∈ cF)) &&
          decide (r.paymentMethod ∈ pyF)) := by
  rw [billing_df_filtered, zipWith_and_map, zipWith_and_map, maskSelect_map]

/-- C2 counterexample: on a one-row table whose row passes every other
filter, an empty persona selection returns the whole table — the claim says
an empty accepted-value set must yield an empty filtered table. -/
theorem C2_empty_persona_not_empty_result :
    demo_filtered_df 18 80 ["Male"] [] [.Stayed] ["Yes"] [0] [sampleStayed] =
        [sampleStayed] ∧
      demo_filtered_df 18 80 ["Male"] [] [.Stayed] ["Yes"] [0] [sampleStayed] ≠
        ([] : List Customer) := by
  constructor
  · decide
  · decide

/-- C2 (amended): filtering selects exactly the rows satisfying the
conjunction of the supplied predicates, preserving source order (the result
is a sublist of the source); an empty accepted-value set yields an empty
table for the Billing filter columns and for every Demographic column except
Persona, whose empty selection the source treats as unconstrained
(`Pages/Demographic.py:106-107` appends the persona mask only when the
selection is non-empty). -/
theorem C2_filter_conjunction_order_and_empty_sets (minAge maxAge : Int)
    (gF pF : List String) (stF : List Status) (mF : List String)
    (dF : List Int) (cF pyF : List String) (l : List Customer) :
    demo_filtered_df minAge maxAge gF pF stF mF dF l =
        l.filter (demoPred minAge maxAge gF pF stF mF dF)
      ∧ (demo_filtered_df minAge maxAge gF pF stF mF dF l).Sublist l
      ∧ billing_df_filtered stF cF pyF l =
          l.filter (fun r =>
            (decide (r.status ∈ stF) && decide (r.contract ∈ cF)) &&
              decide (r.paymentMethod ∈ pyF))
      ∧ (billing_df_filtered stF cF pyF l).Sublist l
      ∧ (gF = [] → demo_filtered_df minAge maxAge gF pF stF mF dF l = [])
      ∧ (stF = [] → billing_df_filtered stF cF pyF l = []) := by
  refine ⟨demo_filtered_df_eq_filter _ _ _ _ _ _ _ _, ?_, 
    billing_df_filtered_eq_filter _ _ _ _, ?_, ?_, ?_⟩
  · rw [demo_filtered_df_eq_filter]
    exact List.filter_sublist l
  · rw [billing_df_filtered_eq_filter]
    exact List.filter_sublist l
  · intro hg
    rw [demo_filtered_df_eq_filter]
    apply List.filter_eq_nil_iff.mpr
    intro r _
    simp [demoPred, hg]
  · intro hst
    rw [billing_df_filtered_eq_filter]
    apply List.filter_eq_nil_iff.mpr
    intro r _
    simp [hst]

/-- Witness for `C2_filter_conjunction_order_and_empty_sets` at a concrete
table, exercising both empty-selection hypotheses. -/
theorem C2_filter_conjunction_order_and_empty_sets_witness :
    demo_filtered_df 18 80 [] ["Loyal"] [.Stayed] ["Yes"] [0] [sampleStayed] =
        ([] : List Customer) ∧
      billing_df_filtered [] ["Month-to-Month"] ["Credit Card"] [sampleStayed] =
        ([] : List Customer) :=
  ⟨(C2_filter_conjunction_order_and_empty_sets 18 80 [] ["Loyal"] [.Stayed]
      ["Yes"] [0] ["Month-to-Month"] ["Credit Card"] [sampleStayed]).2.2.2.2.1 rfl,
   (C2_filter_conjunction_order_and_empty_sets 18 80 [] ["Loyal"] [] ["Yes"]
      [0] ["Month-to-Month"] ["Credit Card"] [sampleStayed]).2.2.2.2.2 rfl⟩

/-- C3: with bins `[18,20,...,100,inf]` and labels `['18',...,'100+']` under
`right=False, include_lowest=True`, a value exactly equal to any bin edge
lands in the bucket that edge opens; in particular age 30 falls in the `'30'`
bucket and not the `'20'` bucket. -/
theorem C3_edge_value_opens_its_bucket :
    (∀ i : Fin 10, Age_cluster_cut (ageEdgeVals.get i) = some (ageLabels.get i))
      ∧ Age_cluster_cut 30 = some "30"
      ∧ Age_cluster_cut 30 ≠ some "20" := by
  refine ⟨?_, by decide, by decide⟩
  decide

theorem countP_map {α β : Type} (p : β → Bool) (f : α → β) (l : List α) :
    (l.map f).countP p = l.countP (fun x => p (f x)) := by
  induction l with
  | nil => rfl
  | cons r t ih => simp [List.countP_cons, ih]

theorem sum_map_add {α : Type} (f g : α → ℕ) (l : List α) :
    (l.map (fun x => f x + g x)).sum = (l.map f).sum + (l.map g).sum := by
  induction l with
  | nil => rfl
  | cons r t ih =>
      simp only [List.map_cons, List.sum_cons, ih]
      omega

theorem sum_lengths_addToGroups (k : String) (r : Customer)
    (gs : List (String × List Customer)) :
    ((addToGroups k r gs).map (fun g => g.2.length)).sum =
      (gs.map (fun g => g.2.length)).sum + 1 := by
  induction gs with
  | nil => simp [addToGroups]
  | cons g0 t ih =>
      obtain ⟨k', m⟩ := g0
      by_cases h : k' = k
      · simp [addToGroups, h]
        omega
      · simp only [addToGroups, if_neg h, List.map_cons, List.sum_cons, ih]
        omega

theorem sum_countP_addToGroups (p : Customer → Bool) (k : String) (r : Customer)
    (gs : List (String × List Customer)) :
    ((addToGroups k r gs).map (fun g => g.2.countP p)).sum =
      (gs.map (fun g => g.2.countP p)).sum + (if p r then 1 else 0) := by
  induction gs with
  | nil => simp [addToGroups, List.countP_cons]
  | cons g0 t ih =>
      obtain ⟨k', m⟩ := g0
      by_cases h : k' = k
      · simp [addToGroups, h, List.countP_cons]
        omega
      · simp only [addToGroups, if_neg h, List.map_cons, List.sum_cons, ih]
        omega

theorem sum_lengths_groupByKey (key : Customer → String) (l : List Customer) :
    ((groupByKey key l).map (fun g => g.2.length)).sum = l.length := by
  induction l with
  | nil => rfl
  | cons r t ih =>
      simp only [groupByKey, sum_lengths_addToGroups, ih, List.length_cons]

theorem sum_countP_groupByKey (key : Customer → String) (p : Customer → Bool)
    (l : List Customer) :
    ((groupByKey key l).map (fun g => g.2.countP p)).sum = l.countP p := by
  induction l with
  | nil => rfl
  | cons r t ih =>
      simp only [groupByKey, sum_countP_addToGroups, ih, List.countP_cons]

theorem addToGroups_nonempty (k : String) (r : Customer)
    (gs : List (String × List Customer)) (h : ∀ g ∈ gs, g.2 ≠ []) :
    ∀ g ∈ addToGroups k r gs, g.2 ≠ [] := by
  induction gs with
  | nil =>
      intro g hg
      simp only [addToGroups, List.mem_singleton] at hg
      subst hg
      simp
  | cons g0 t ih =>
      obtain ⟨k', m⟩ := g0
      by_cases hk : k' = k
      · intro g hg
        simp only [addToGroups, if_pos hk, List.mem_cons] at hg
        rcases hg with rfl | hg
        · simp
        · exact h g (List.mem_cons_of_mem _ hg)
      · intro g hg
        simp only [addToGroups, if_neg hk, List.mem_cons] at hg
        rcases hg with rfl | hg
        · exact h (k', m) (List.mem_cons_self _ _)
        · exact ih (fun g' hg' => h g' (List.mem_cons_of_mem _ hg')) g hg

theorem groupByKey_nonempty (key : Customer → String) (l : List Customer) :
    ∀ g ∈ groupByKey key l, g.2 ≠ [] := by
  induction l with
  | nil => intro g hg; cases hg
  | cons r t ih => exact addToGroups_nonempty (key r) r (groupByKey key t) ih

theorem statusCount_trichotomy (g : List Customer) :
    statusCount .Churned g + statusCount .Stayed g + statusCount .Joined g =
      g.length := by
  induction g with
  | nil => rfl
  | cons r t ih =>
      cases hr : r.status <;>
        simp only [statusCount, List.countP_cons, hr, List.length_cons] at ih ⊢ <;>
        simp <;> omega

theorem Demo_df_length (l : List Customer) : (Demo_df l).length = l.length := by
  simp [Demo_df, withMarriedGender]

theorem Demo_df_countP_status (s : Status) (l : List Customer) :
    (Demo_df l).countP (fun r => decide (r.status = s)) =
      l.countP (fun r => decide (r.status = s)) := by
  rw [Demo_df, withMarriedGender, countP_map]

theorem churn_summary_total_sum (l : List Customer) :
    ((churn_summary l).map (fun row => row.total)).sum = l.length := by
  have h : (churn_summary l).map (fun row => row.total) =
      (groupByKey aggre (Demo_df l)).map (fun g => g.2.length) := by
    simp only [churn_summary, List.map_map]
    apply List.map_congr_left
    intro g _
    simp [Function.comp, mkSummaryRow, statusCount_trichotomy]
  rw [h, sum_lengths_groupByKey, Demo_df_length]

theorem churn_summary_status_sum (s : Status) (l : List Customer)
    (proj : SummaryRow → ℕ)
    (hproj : ∀ k g, proj (mkSummaryRow k g) = statusCount s g) :
    ((churn_summary l).map proj).sum =
      l.countP (fun r => decide (r.status = s)) := by
  have h : (churn_summary l).map proj =
      (groupByKey aggre (Demo_df l)).map
        (fun g => g.2.countP (fun r => decide (r.status = s))) := by
    simp only [churn_summary, List.map_map]
    apply List.map_congr_left
    intro g _
    simp [Function.comp, hproj, statusCount]
  rw [h, sum_countP_groupByKey, Demo_df_countP_status]

theorem city_df_total_sum (l : List Customer) :
    ((city_df l).map (fun row => row.total)).sum = l.length := by
  have h : (city_df l).map (fun row => row.total) =
      (groupByKey (fun r => r.city) l).map (fun g => g.2.length) := by
    simp only [city_df, List.map_map]
    apply List.map_congr_left
    intro g _
    simp [Function.comp, mkCityRow, statusCount_trichotomy]
  rw [h, sum_lengths_groupByKey]

theorem city_df_status_sum (s : Status) (l : List Customer)
    (proj : CityRow → ℕ)
    (hproj : ∀ k g, proj (mkCityRow k g) = statusCount s g) :
    ((city_df l).map proj).sum = l.countP (fun r => decide (r.status = s)) := by
  have h : (city_df l).map proj =
      (groupByKey (fun r => r.city) l).map
        (fun g => g.2.countP (fun r => decide (r.status = s))) := by
    simp only [city_df, List.map_map]
    apply List.map_congr_left
    intro g _
    simp [Function.comp, hproj, statusCount]
  rw [h, sum_countP_groupByKey]

/-- C1: counts are conserved.  For every table and every Demographic filter
selection, the per-group summary totals of `churn_summary` sum to the number
of filtered rows and each per-status column sums to the status count of the
ungrouped filtered table; the same holds for the Geographic `city_df`
summary under the State/City filter. -/
theorem C1_conservation (minAge maxAge : Int) (gF pF : List String)
    (stF : List Status) (mF : List String) (dF : List Int)
    (sts cts : List String) (l : List Customer) :
    (((churn_summary (demo_filtered_df minAge maxAge gF pF stF mF dF l)).map
          (fun row => row.total)).sum =
        (demo_filtered_df minAge maxAge gF pF stF mF dF l).length
      ∧ ((churn_summary (demo_filtered_df minAge maxAge gF pF stF mF dF l)).map
          (fun row => row.churned)).sum =
        (demo_filtered_df minAge maxAge gF pF stF mF dF l).countP
          (fun r => decide (r.status = .Churned))
      ∧ ((churn_summary (demo_filtered_df minAge maxAge gF pF stF mF dF l)).map
          (fun row => row.stayed)).sum =
        (demo_filtered_df minAge maxAge gF pF stF mF dF l).countP
          (fun r => decide (r.status = .Stayed))
      ∧ ((churn_summary (demo_filtered_df minAge maxAge gF pF stF mF dF l)).map
          (fun row => row.joined)).sum =
        (demo_filtered_df minAge maxAge gF pF stF mF dF l).countP
          (fun r => decide (r.status = .Joined)))
    ∧ (((city_df (geo_filtered_df sts cts l)).map (fun row => row.total)).sum =
        (geo_filtered_df sts cts l).length
      ∧ ((city_df (geo_filtered_df sts cts l)).map (fun row => row.churned)).sum =
        (geo_filtered_df sts cts l).countP (fun r => decide (r.status = .Churned))
      ∧ ((city_df (geo_filtered_df sts cts l)).map (fun row => row.stayed)).sum =
        (geo_filtered_df sts cts l).countP (fun r => decide (r.status = .Stayed))
      ∧ ((city_df (geo_filtered_df sts cts l)).map (fun row => row.joined)).sum =
        (geo_filtered_df sts cts l).countP (fun r => decide (r.status = .Joined))) :=
  ⟨⟨churn_summary_total_sum _,
    churn_summary_status_sum _ _ _ (fun _ _ => rfl),
    churn_summary_status_sum _ _ _ (fun _ _ => rfl),
    churn_summary_status_sum _ _ _ (fun _ _ => rfl)⟩,
   ⟨city_df_total_sum _,
    city_df_status_sum _ _ _ (fun _ _ => rfl),
    city_df_status_sum _ _ _ (fun _ _ => rfl),
    city_df_status_sum _ _ _ (fun _ _ => rfl)⟩⟩

/-- C5: on a zero-row filtered table the Geographic aggregation yields an
empty summary (its rate lines guard with `.get('Churned', 0)`), but the
Demographic aggregation raises `KeyError: 'Churned'` at
`Pages/Demographic.py:255`, because `unstack` creates no `'Churned'` column
when no filtered row is churned.  The claim (empty summary, no error) is
what the spec demands and what the Geographic page implements; the
Demographic page crashes instead. -/
theorem C5_empty_input_demo_raises_geo_empty :
    churn_summary_full [] = Except.error "KeyError: 'Churned'"
      ∧ city_df [] = []
      ∧ churn_summary [] = [] := by
  refine ⟨rfl, rfl, rfl⟩

/-- C4 counterexample: a 17-year-old row is outside every age bin
(`Age_cluster_cut` is NaN), yet the Demographic segmenter does not exclude
it: `astype(str)` turns the NaN into the key fragment `"nan"` and the row
lands in exactly one group, so the sum of group sizes is 1, not 0. -/
theorem C4_out_of_range_row_lands_in_nan_group :
    groupByKey aggre (Demo_df [sampleMinor]) =
        [("Married | Male | nan | 0 | ",
          [{ sampleMinor with married_gender := some "Married | Male" }])]
      ∧ ((groupByKey aggre (Demo_df [sampleMinor])).map (fun g => g.2.length)).sum = 1
      ∧ Age_cluster_cut ((sampleMinor.age : ℚ)) = none := by
  refine ⟨by decide, by decide, by decide⟩

/-- C4 (amended): the Demographic segmenter partitions every filtered row —
rows whose age is outside all bins are not excluded but grouped under a
`"nan"` key fragment, so the derivable excluded-row count
`len(table) - sum(group sizes)` is always 0; exclusion of rows outside a
derived-key mapping does occur on the Services page, where a row whose
`ser_class` is NaN (phone = internet = `"No"`) never passes the
`isin`-based filter. -/
theorem C4_partition_and_services_exclusion (l : List Customer) :
    ((groupByKey aggre (Demo_df l)).map (fun g => g.2.length)).sum = l.length
      ∧ (∀ p : Customer → Bool,
          ((groupByKey aggre (Demo_df l)).map (fun g => g.2.countP p)).sum =
            (Demo_df l).countP p)
      ∧ l.length - ((groupByKey aggre (Demo_df l)).map (fun g => g.2.length)).sum = 0
      ∧ (∀ selP selS : List String, ∀ r ∈ services_filtered_df selP selS l,
          (ser_class r).isSome) := by
  refine ⟨?_, ?_, ?_, ?_⟩
  · rw [sum_lengths_groupByKey, Demo_df_length]
  · intro p
    exact sum_countP_groupByKey _ _ _
  · rw [sum_lengths_groupByKey, Demo_df_length]
    omega
  · intro selP selS r hr
    rw [services_filtered_df, List.mem_filter] at hr
    rcases hr with ⟨-, hpred⟩
    cases h : ser_class r with
    | some s => simp [h]
    | none => rw [h] at hpred; simp at hpred

/-- Witness for `C4_partition_and_services_exclusion` on a one-row table,
exercising the Services membership hypothesis. -/
theorem C4_partition_and_services_exclusion_witness :
    ((groupByKey aggre (Demo_df [sampleStayed])).map (fun g => g.2.length)).sum = 1
      ∧ (ser_class sampleStayed).isSome :=
  ⟨(C4_partition_and_services_exclusion [sampleStayed]).1,
   (C4_partition_and_services_exclusion [sampleStayed]).2.2.2 ["Loyal"] ["Both"]
     sampleStayed (by decide)⟩

theorem filter_map_commute {α β : Type} (f : α → β) (p : β → Bool) (l : List α) :
    (l.map f).filter p = (l.filter (fun x => p (f x))).map f := by
  induction l with
  | nil => rfl
  | cons r t ih =>
      by_cases h : p (f r) = true
      · simp [List.filter_cons, h, ih]
      · simp [List.filter_cons, h, ih]

/-- C10: for every State/City selection, `filtered_map_df` is row-for-row the
image of `filtered_df` under the `Churn` recode `2 ↦ 0`: both filters select
the same index set in the same order, and corresponding rows differ at most
in the `Churn` column. -/
theorem C10_filtered_tables_agree_up_to_churn_recode (sts cts : List String)
    (l : List Customer) :
    filtered_map_df sts cts l = (geo_filtered_df sts cts l).map churnFix
      ∧ (filtered_map_df sts cts l).length = (geo_filtered_df sts cts l).length := by
  have h : filtered_map_df sts cts l = (geo_filtered_df sts cts l).map churnFix := by
    rw [filtered_map_df, map_df_of, filter_map_commute]
    rfl
  exact ⟨h, by rw [h, List.length_map]⟩

/-- C9 counterexample: the `flag_outliers` call writes its two flag columns
into the very frame it receives (`df['out_low'] = ...` inside the function),
so the result keeps the input object's identity while its contents change —
it does not produce a new table and it mutates its input in place. -/
theorem C9_flag_outliers_mutates_its_input :
    (flag_outliers_call sampleCityObj).oid = sampleCityObj.oid
      ∧ (flag_outliers_call sampleCityObj).val ≠ sampleCityObj.val := by
  refine ⟨rfl, ?_⟩
  intro h
  have h2 : (flag_outliers_call sampleCityObj).val.map (fun r => r.out_low) =
      [Option.none] := by
    rw [h]
    rfl
  rw [flag_outliers_call] at h2
  simp [flag_outliers, flag_outliersK, sampleCityObj] at h2

/-- C9 (amended): the loaded source table is unchanged (identity and
contents) after both the Geographic and the Demographic pipelines, and the
filtered, copied, and aggregated frames are fresh objects; however, the
outlier flagger and the `Married_Gender` assignment write into their input
frames in place rather than producing new tables (those inputs are derived
frames, so source immutability still holds). -/
theorem C9_source_table_immutable (src : Obj (List Customer))
    (sts cts : List String) (minAge maxAge : Int) (gF pF : List String)
    (stF : List Status) (mF : List String) (dF : List Int) :
    (geoPipeline src sts cts).df = src
      ∧ (geoPipeline src sts cts).map_df.oid ≠ src.oid
      ∧ (geoPipeline src sts cts).filtered_df.oid ≠ src.oid
      ∧ (geoPipeline src sts cts).filtered_map_df.oid ≠ src.oid
      ∧ (geoPipeline src sts cts).city_df.oid ≠ src.oid
      ∧ (demoPipeline src minAge maxAge gF pF stF mF dF).df = src
      ∧ (demoPipeline src minAge maxAge gF pF stF mF dF).filtered_df.oid ≠ src.oid
      ∧ (demoPipeline src minAge maxAge gF pF stF mF dF).demo_df.oid ≠ src.oid := by
  refine ⟨rfl, ?_, ?_, ?_, ?_, rfl, ?_, ?_⟩ <;>
    simp [geoPipeline, demoPipeline, flag_outliers_call, copyObj,
      married_gender_assign]

/-- C7: the ranker call sites invoke
`sort_values(metric, ascending=False).head(N)` with pandas' default
`kind='quicksort'`, whose contract (`IsSortValuesDesc`) fixes only a
descending permutation of the rows.  On a concrete two-row tie both
orderings satisfy that contract, they differ, and even their `head(1)`
differ — so the claimed stable tie-breaking by original group-key order is
not guaranteed by the code (a stable sort would require passing
`kind='stable'`); `head(N)` with `N` beyond the group count does return all
rows without error. -/
theorem C7_default_sort_leaves_tie_order_unspecified :
    IsSortValuesDesc (fun r => (r.total : ℚ)) [sampleCityRow, sampleCityRowB]
        [sampleCityRow, sampleCityRowB]
      ∧ IsSortValuesDesc (fun r => (r.total : ℚ)) [sampleCityRow, sampleCityRowB]
        [sampleCityRowB, sampleCityRow]
      ∧ ([sampleCityRow, sampleCityRowB] : List CityRow) ≠
        [sampleCityRowB, sampleCityRow]
      ∧ ([sampleCityRow, sampleCityRowB] : List CityRow).take 1 ≠
        ([sampleCityRowB, sampleCityRow] : List CityRow).take 1
      ∧ ([sampleCityRow, sampleCityRowB] : List CityRow).take 5 =
        [sampleCityRow, sampleCityRowB] := by
  have htie : (sampleCityRowB.total : ℚ) ≤ (sampleCityRow.total : ℚ) := by
    norm_num [sampleCityRow, sampleCityRowB]
  have htie2 : (sampleCityRow.total : ℚ) ≤ (sampleCityRowB.total : ℚ) := by
    norm_num [sampleCityRow, sampleCityRowB]
  have hcity : sampleCityRow.city ≠ sampleCityRowB.city := by
    rw [show sampleCityRow.city = "Los Angeles" from rfl,
      show sampleCityRowB.city = "Burbank" from rfl]
    decide
  refine ⟨⟨List.Perm.refl _, ?_⟩, ⟨List.Perm.swap _ _ _, ?_⟩, ?_, ?_, rfl⟩
  · refine List.pairwise_cons.mpr ⟨?_, List.pairwise_singleton _ _⟩
    intro y hy
    rcases List.mem_singleton.mp hy with rfl
    exact htie
  · refine List.pairwise_cons.mpr ⟨?_, List.pairwise_singleton _ _⟩
    intro y hy
    rcases List.mem_singleton.mp hy with rfl
    exact htie2
  · intro h
    exact hcity (congrArg (fun l : List CityRow =>
      (l.headD sampleCityRow).city) h)
  · intro h
    exact hcity (congrArg (fun l : List CityRow =>
      (l.headD sampleCityRow).city) h)

theorem round_rat_mono {x y : ℚ} (h : x ≤ y) : round x ≤ round y := by
  rw [round_eq, round_eq]
  exact Int.floor_le_floor (by linarith)

theorem round1_nonneg {x : ℚ} (h : 0 ≤ x) : 0 ≤ round1 x := by
  have h1 : round ((0 : ℚ)) ≤ round (10 * x) := round_rat_mono (by linarith)
  have h2 : (0 : ℤ) ≤ round (10 * x) := by simpa using h1
  have h3 : (0 : ℚ) ≤ ((round (10 * x) : ℤ) : ℚ) := by exact_mod_cast h2
  rw [round1]
  exact div_nonneg h3 (by norm_num)

theorem round1_le_100 {x : ℚ} (h : x ≤ 100) : round1 x ≤ 100 := by
  have h1 : round (10 * x) ≤ round ((1000 : ℚ)) := round_rat_mono (by linarith)
  have h2 : round ((1000 : ℚ)) = 1000 := by
    rw [show ((1000 : ℚ)) = ((1000 : ℤ) : ℚ) by norm_num, round_intCast]
  rw [h2] at h1
  have h3 : ((round (10 * x) : ℤ) : ℚ) ≤ 1000 := by exact_mod_cast h1
  rw [round1]
  linarith

theorem statusSum_nonneg (f : Customer → ℚ) (s : Status) (l : List Customer)
    (h : ∀ r ∈ l, 0 ≤ f r) : 0 ≤ statusSum f s l := by
  apply round1_nonneg
  apply List.sum_nonneg
  intro x hx
  rcases List.mem_map.mp hx with ⟨r, hr, rfl⟩
  exact h r (List.mem_filter.mp hr).1

theorem finGet_nonneg (f : Customer → ℚ) (s : Status) (l : List Customer)
    (h : ∀ r ∈ l, 0 ≤ f r) : 0 ≤ finGet f s l := by
  rw [finGet]
  split
  · exact statusSum_nonneg f s l h
  · exact le_refl 0

theorem finGet_le_finTotal (f : Customer → ℚ) (s : Status) (l : List Customer)
    (h : ∀ r ∈ l, 0 ≤ f r) : finGet f s l ≤ finTotal f l := by
  have hc := finGet_nonneg f .Churned l h
  have hs := finGet_nonneg f .Stayed l h
  have hj := finGet_nonneg f .Joined l h
  cases s <;> rw [finTotal] <;> linarith

theorem pctOfTotal_bounds {num den : ℚ} (h0 : 0 ≤ num) (hle : num ≤ den)
    (hpos : 0 < den) :
    ∃ v, pctOfTotal num den = some v ∧ 0 ≤ v ∧ v ≤ 100 := by
  refine ⟨round1 (num / den * 100), ?_, ?_, ?_⟩
  · rw [pctOfTotal, if_neg (ne_of_gt hpos)]
  · exact round1_nonneg (by positivity)
  · apply round1_le_100
    have hdiv : num / den ≤ 1 := (div_le_one hpos).mpr hle
    linarith

theorem churnPct_bounds {c t : ℕ} (h1 : 1 ≤ t) (h2 : c ≤ t) :
    0 ≤ churnPct c t ∧ churnPct c t ≤ 100 := by
  have hpos : (0 : ℚ) < (t : ℚ) := by exact_mod_cast Nat.lt_of_lt_of_le Nat.zero_lt_one h1
  have hle : (c : ℚ) ≤ (t : ℚ) := by exact_mod_cast h2
  have hdiv0 : (0 : ℚ) ≤ (c : ℚ) / (t : ℚ) := by positivity
  have hdiv1 : (c : ℚ) / (t : ℚ) ≤ 1 := (div_le_one hpos).mpr hle
  constructor
  · exact round1_nonneg (by positivity)
  · apply round1_le_100
    linarith

/-- C8 counterexample: with a churned customer whose `Net_Revenue` is
negative, the financial summary's `loss%` rate is `-100`, outside `[0, 100]`
even though `total = 10` is nonzero. -/
theorem C8_negative_revenue_rate_out_of_bounds :
    lossPct (fun r => r.netRevenue) [sampleNegRevenue, samplePosRevenue] =
        some (-100)
      ∧ ¬ (0 : ℚ) ≤ (-100 : ℚ) := by
  have hc : statusSum (fun r => r.netRevenue) .Churned
      [sampleNegRevenue, samplePosRevenue] = -10 := by
    rw [statusSum]
    simp only [sampleNegRevenue, samplePosRevenue, sampleStayed, List.filter,
      List.map]
    norm_num [round1, round_eq]
  have hs : statusSum (fun r => r.netRevenue) .Stayed
      [sampleNegRevenue, samplePosRevenue] = 20 := by
    rw [statusSum]
    simp only [sampleNegRevenue, samplePosRevenue, sampleStayed, List.filter,
      List.map]
    norm_num [round1, round_eq]
  have hhc : hasStatus .Churned [sampleNegRevenue, samplePosRevenue] = true := by
    decide
  have hhs : hasStatus .Stayed [sampleNegRevenue, samplePosRevenue] = true := by
    decide
  have hhj : hasStatus .Joined [sampleNegRevenue, samplePosRevenue] = false := by
    decide
  have htot : finTotal (fun r => r.netRevenue) [sampleNegRevenue, samplePosRevenue]
      = 10 := by
    rw [finTotal, finGet, finGet, finGet, hhc, hhs, hhj, if_pos rfl, if_pos rfl,
      if_neg (by simp), hc, hs]
    norm_num
  constructor
  · rw [lossPct, htot, finGet, hhc, if_pos rfl, hc, pctOfTotal,
      if_neg (by norm_num)]
    rw [round1, round_eq]
    norm_num
  · norm_num

/-- C8 (amended): for the count-based Demographic summary every group total
is at least 1 (so `Total == 0` cannot occur) and `Churn%` always lies in
`[0, 100]`; for the Financial summary the bounds hold for every monetary
column with non-negative values: the `total` is non-negative, a zero `total`
makes every rate undefined (`none`, pandas NaN), and a nonzero `total` gives
every rate a value in `[0, 100]`.  A monetary column with negative values
(e.g. a negative `Net_Revenue`) can push a rate outside `[0, 100]`. -/
theorem C8_rate_bounds (f : Customer → ℚ) (l : List Customer) :
    (∀ row ∈ churn_summary l,
        1 ≤ row.total ∧ row.churned ≤ row.total ∧
          0 ≤ churnPct row.churned row.total ∧ churnPct row.churned row.total ≤ 100)
      ∧ ((∀ r ∈ l, 0 ≤ f r) →
          0 ≤ finTotal f l
          ∧ (finTotal f l = 0 →
              recoverPct f l = none ∧ oldPct f l = none ∧ lossPct f l = none
                ∧ activePct f l = none)
          ∧ (finTotal f l ≠ 0 →
              (∃ v, recoverPct f l = some v ∧ 0 ≤ v ∧ v ≤ 100)
              ∧ (∃ v, oldPct f l = some v ∧ 0 ≤ v ∧ v ≤ 100)
              ∧ (∃ v, lossPct f l = some v ∧ 0 ≤ v ∧ v ≤ 100)
              ∧ (∃ v, activePct f l = some v ∧ 0 ≤ v ∧ v ≤ 100))) := by
  constructor
  · intro row hrow
    rcases List.mem_map.mp hrow with ⟨⟨k, g⟩, hg, rfl⟩
    have hne := groupByKey_nonempty aggre (Demo_df l) ⟨k, g⟩ hg
    have hlen : 1 ≤ g.length := by
      cases g with
      | nil => exact absurd rfl hne
      | cons a t => simp
    have htot : (mkSummaryRow k g).total = g.length := by
      rw [mkSummaryRow]
      exact statusCount_trichotomy g
    have hle : (mkSummaryRow k g).churned ≤ (mkSummaryRow k g).total := by
      show statusCount .Churned g ≤
        statusCount .Churned g + statusCount .Stayed g + statusCount .Joined g
      omega
    refine ⟨by rw [htot]; exact hlen, hle, ?_, ?_⟩
    · exact (churnPct_bounds (by rw [htot]; exact hlen) hle).1
    · exact (churnPct_bounds (by rw [htot]; exact hlen) hle).2
  · intro hnn
    have h0 : 0 ≤ finTotal f l := by
      have hc := finGet_nonneg f .Churned l hnn
      have hs := finGet_nonneg f .Stayed l hnn
      have hj := finGet_nonneg f .Joined l hnn
      rw [finTotal]
      linarith
    refine ⟨h0, ?_, ?_⟩
    · intro hz
      rw [recoverPct, oldPct, lossPct, activePct, lossPct, hz]
      rw [pctOfTotal, pctOfTotal, pctOfTotal]
      simp
    · intro hnz
      have hpos : 0 < finTotal f l := lt_of_le_of_ne h0 (Ne.symm hnz)
      refine ⟨?_, ?_, ?_, ?_⟩
      · exact pctOfTotal_bounds (finGet_nonneg f .Joined l hnn)
          (finGet_le_finTotal f .Joined l hnn) hpos
      · exact pctOfTotal_bounds (finGet_nonneg f .Stayed l hnn)
          (finGet_le_finTotal f .Stayed l hnn) hpos
      · exact pctOfTotal_bounds (finGet_nonneg f .Churned l hnn)
          (finGet_le_finTotal f .Churned l hnn) hpos
      · rcases pctOfTotal_bounds (finGet_nonneg f .Churned l hnn)
          (finGet_le_finTotal f .Churned l hnn) hpos with ⟨v, hv, hv0, hv100⟩
        refine ⟨100 - v, ?_, by linarith, by linarith⟩
        rw [activePct, lossPct, hv]
        rfl

/-- Witness for `C8_rate_bounds`: a concrete one-row table exercising the
group-membership hypothesis, the non-negativity hypothesis, and the nonzero
`total` branch. -/
theorem C8_rate_bounds_witness :
    (1 ≤ (mkSummaryRow "Married | Male | 30 | 0 | "
        [{ sampleStayed with married_gender := some "Married | Male" }]).total)
      ∧ (0 : ℚ) ≤ finTotal (fun r => r.netRevenue) [samplePosRevenue]
      ∧ (∃ v, lossPct (fun r => r.netRevenue) [samplePosRevenue] = some v ∧
          0 ≤ v ∧ v ≤ 100) := by
  have hnn : ∀ r ∈ [samplePosRevenue], 0 ≤ r.netRevenue := by
    intro r hr
    rcases List.mem_singleton.mp hr with rfl
    norm_num [samplePosRevenue, sampleStayed]
  have hb := (C8_rate_bounds (fun r => r.netRevenue) [samplePosRevenue]).2 hnn
  have hs20 : statusSum (fun r => r.netRevenue) .Stayed [samplePosRevenue] = 20 := by
    rw [statusSum]
    simp only [samplePosRevenue, sampleStayed, List.filter, List.map]
    norm_num [round1, round_eq]
  have htot : finTotal (fun r => r.netRevenue) [samplePosRevenue] = 20 := by
    rw [finTotal, finGet, finGet, finGet]
    rw [show hasStatus Status.Churned [samplePosRevenue] = false from by decide]
    rw [show hasStatus Status.Stayed [samplePosRevenue] = true from by decide]
    rw [show hasStatus Status.Joined [samplePosRevenue] = false from by decide]
    rw [if_neg (by simp), if_pos rfl, if_neg (by simp), hs20]
    norm_num
  refine ⟨?_, hb.1, (hb.2.2 (by rw [htot]; norm_num)).2.2.1⟩
  exact ((C8_rate_bounds (fun r => r.netRevenue) [sampleStayed]).1
    (mkSummaryRow "Married | Male | 30 | 0 | "
      [{ sampleStayed with married_gender := some "Married | Male" }])
    (by decide)).1

theorem getD_of_lt (s : List ℚ) (i : ℕ) (d : ℚ) (h : i < s.length) :
    s.getD i d = s.get ⟨i, h⟩ := by
  rw [List.getD_eq_getElem?_getD, List.getElem?_eq_getElem h]
  rfl

theorem getD_of_ge (s : List ℚ) (i : ℕ) (d : ℚ) (h : s.length ≤ i) :
    s.getD i d = d := by
  rw [List.getD_eq_getElem?_getD, List.getElem?_eq_none h]
  rfl

theorem sorted_get_le (s : List ℚ) (hs : s.Sorted (· ≤ ·)) (i j : ℕ)
    (hi : i < s.length) (hj : j < s.length) (hij : i ≤ j) :
    s.get ⟨i, hi⟩ ≤ s.get ⟨j, hj⟩ := by
  rcases Nat.lt_or_ge i j with hlt | hge
  · exact List.pairwise_iff_get.mp hs ⟨i, hi⟩ ⟨j, hj⟩ hlt
  · have heq : i = j := le_antisymm hij hge
    subst heq
    exact le_refl _

theorem interp_core_mono (s : List ℚ) (hs : s.Sorted (· ≤ ·)) (i j : ℕ)
    (gi gj : ℚ) (hij : i ≤ j) (hjlt : j < s.length) (_hgi0 : 0 ≤ gi)
    (hgi1 : gi < 1) (hgj0 : 0 ≤ gj) (hstep : i = j → gi ≤ gj) :
    s.getD i 0 + gi * (s.getD (i + 1) (s.getD i 0) - s.getD i 0) ≤
      s.getD j 0 + gj * (s.getD (j + 1) (s.getD j 0) - s.getD j 0) := by
  have hilt : i < s.length := lt_of_le_of_lt hij hjlt
  have hab : s.getD i 0 ≤ s.getD (i + 1) (s.getD i 0) := by
    by_cases h1 : i + 1 < s.length
    · rw [getD_of_lt _ _ _ hilt, getD_of_lt _ _ _ h1]
      exact sorted_get_le s hs i (i + 1) hilt h1 (Nat.le_succ i)
    · rw [getD_of_ge _ _ _ (Nat.le_of_not_lt h1)]
  have hab' : s.getD j 0 ≤ s.getD (j + 1) (s.getD j 0) := by
    by_cases h1 : j + 1 < s.length
    · rw [getD_of_lt _ _ _ hjlt, getD_of_lt _ _ _ h1]
      exact sorted_get_le s hs j (j + 1) hjlt h1 (Nat.le_succ j)
    · rw [getD_of_ge _ _ _ (Nat.le_of_not_lt h1)]
  rcases Nat.lt_or_ge i j with hlt | hge
  · have h1 : i + 1 < s.length := lt_of_le_of_lt (Nat.succ_le_of_lt hlt) hjlt
    have hb_le : s.getD (i + 1) (s.getD i 0) ≤ s.getD j 0 := by
      rw [getD_of_lt _ _ _ h1, getD_of_lt _ _ _ hjlt]
      exact sorted_get_le s hs (i + 1) j h1 hjlt (Nat.succ_le_of_lt hlt)
    have h2 : gi * (s.getD (i + 1) (s.getD i 0) - s.getD i 0) ≤
        s.getD (i + 1) (s.getD i 0) - s.getD i 0 := by
      have := mul_le_mul_of_nonneg_right (le_of_lt hgi1)
        (show (0 : ℚ) ≤ s.getD (i + 1) (s.getD i 0) - s.getD i 0 by linarith)
      linarith
    have h3 : 0 ≤ gj * (s.getD (j + 1) (s.getD j 0) - s.getD j 0) :=
      mul_nonneg hgj0 (by linarith)
    linarith
  · have heq : i = j := le_antisymm hij hge
    have hgig : gi ≤ gj := hstep heq
    subst heq
    have := mul_le_mul_of_nonneg_right hgig
      (show (0 : ℚ) ≤ s.getD (i + 1) (s.getD i 0) - s.getD i 0 by linarith)
    linarith

theorem interpAt_mono (s : List ℚ) (hs : s.Sorted (· ≤ ·)) (p q : ℚ)
    (hp : 0 ≤ p) (hpq : p ≤ q) (hq : q ≤ (s.length : ℚ) - 1) :
    interpAt s p ≤ interpAt s q := by
  have hq0 : 0 ≤ q := le_trans hp hpq
  have hn1 : (1 : ℚ) ≤ (s.length : ℚ) := by linarith
  have hnpos : 1 ≤ s.length := by exact_mod_cast hn1
  have hfp0 : (0 : ℤ) ≤ ⌊p⌋ := Int.le_floor.mpr (by exact_mod_cast hp)
  have hfq0 : (0 : ℤ) ≤ ⌊q⌋ := Int.le_floor.mpr (by exact_mod_cast hq0)
  have hffpq : ⌊p⌋ ≤ ⌊q⌋ := Int.floor_le_floor hpq
  have hcast : ((s.length : ℚ) - 1) = (((s.length : ℤ) - 1 : ℤ) : ℚ) := by
    push_cast
    ring
  have hfqn : ⌊q⌋ ≤ (s.length : ℤ) - 1 := by
    have h2 := Int.floor_le_floor hq
    rwa [hcast, Int.floor_intCast] at h2
  have hiz : ((⌊p⌋.toNat : ℤ)) = ⌊p⌋ := Int.toNat_of_nonneg hfp0
  have hjz : ((⌊q⌋.toNat : ℤ)) = ⌊q⌋ := Int.toNat_of_nonneg hfq0
  have hij : ⌊p⌋.toNat ≤ ⌊q⌋.toNat := by omega
  have hjlt : ⌊q⌋.toNat < s.length := by omega
  have hgp0 : 0 ≤ p - ((⌊p⌋ : ℤ) : ℚ) := by linarith [Int.floor_le p]
  have hgp1 : p - ((⌊p⌋ : ℤ) : ℚ) < 1 := by linarith [Int.lt_floor_add_one p]
  have hgq0 : 0 ≤ q - ((⌊q⌋ : ℤ) : ℚ) := by linarith [Int.floor_le q]
  have hstep : ⌊p⌋.toNat = ⌊q⌋.toNat →
      p - ((⌊p⌋ : ℤ) : ℚ) ≤ q - ((⌊q⌋ : ℤ) : ℚ) := by
    intro he
    have heq : ⌊p⌋ = ⌊q⌋ := by omega
    rw [heq]
    linarith
  have hmain := interp_core_mono s hs ⌊p⌋.toNat ⌊q⌋.toNat
    (p - ((⌊p⌋ : ℤ) : ℚ)) (q - ((⌊q⌋ : ℤ) : ℚ)) hij hjlt hgp0 hgp1 hgq0 hstep
  have hl : interpAt s p = s.getD ⌊p⌋.toNat 0 +
      (p - ((⌊p⌋ : ℤ) : ℚ)) *
        (s.getD (⌊p⌋.toNat + 1) (s.getD ⌊p⌋.toNat 0) - s.getD ⌊p⌋.toNat 0) := rfl
  have hr : interpAt s q = s.getD ⌊q⌋.toNat 0 +
      (q - ((⌊q⌋ : ℤ) : ℚ)) *
        (s.getD (⌊q⌋.toNat + 1) (s.getD ⌊q⌋.toNat 0) - s.getD ⌊q⌋.toNat 0) := rfl
  rw [hl, hr]
  exact hmain

theorem quantileLin_q1_le_q3 (l : List ℚ) :
    quantileLin l (1 / 4) ≤ quantileLin l (3 / 4) := by
  rcases l with _ | ⟨x, t⟩
  · simp [quantileLin, interpAt]
  · have hs := List.sorted_insertionSort (α := ℚ) (· ≤ ·) (x :: t)
    have hlen : (List.insertionSort (· ≤ ·) (x :: t)).length = (x :: t).length :=
      List.length_insertionSort _ _
    have hn1 : 1 ≤ (x :: t).length := by simp
    have hn1q : (1 : ℚ) ≤ ((x :: t).length : ℚ) := by exact_mod_cast hn1
    rw [quantileLin, quantileLin]
    apply interpAt_mono _ hs
    · nlinarith
    · nlinarith
    · rw [hlen]
      nlinarith

/-- C6: for every IQR multiplier `k ≥ 0` (the source fixes the default 1.5)
and every summary table, the flagger marks a group low-outlier iff its
`total` is strictly below `Q1 - k*IQR` and high-outlier iff strictly above
`Q3 + k*IQR`, where `Q1`, `Q3` are recomputed from the rows passed in on
each call; consequently no group is flagged both low and high. -/
theorem C6_outlier_flags_iff_and_exclusive (k : ℚ) (rows : List CityRow)
    (hk : 0 ≤ k) :
    ∀ x ∈ flag_outliersK (fun r => (r.total : ℚ)) k rows,
      (x.out_low = some 1 ↔
          (x.total : ℚ) <
            quantileLin (rows.map (fun r => (r.total : ℚ))) (1 / 4) -
              k * (quantileLin (rows.map (fun r => (r.total : ℚ))) (3 / 4) -
                quantileLin (rows.map (fun r => (r.total : ℚ))) (1 / 4)))
      ∧ (x.out_high = some 1 ↔
          quantileLin (rows.map (fun r => (r.total : ℚ))) (3 / 4) +
              k * (quantileLin (rows.map (fun r => (r.total : ℚ))) (3 / 4) -
                quantileLin (rows.map (fun r => (r.total : ℚ))) (1 / 4)) <
            (x.total : ℚ))
      ∧ ¬ (x.out_low = some 1 ∧ x.out_high = some 1) := by
  intro x hx
  simp only [flag_outliersK, List.mem_map] at hx
  rcases hx with ⟨r, hr, rfl⟩
  set q1 := quantileLin (rows.map (fun r => (r.total : ℚ))) (1 / 4) with hq1
  set q3 := quantileLin (rows.map (fun r => (r.total : ℚ))) (3 / 4) with hq3
  have hq13 : q1 ≤ q3 := quantileLin_q1_le_q3 _
  refine ⟨?_, ?_, ?_⟩
  · by_cases hc : (r.total : ℚ) < q1 - k * (q3 - q1) <;> simp [hc]
  · by_cases hc : q3 + k * (q3 - q1) < (r.total : ℚ) <;> simp [hc]
  · rintro ⟨h1, h2⟩
    by_cases hc1 : (r.total : ℚ) < q1 - k * (q3 - q1)
    · by_cases hc2 : q3 + k * (q3 - q1) < (r.total : ℚ)
      · have hkk := mul_nonneg hk (sub_nonneg.mpr hq13)
        linarith
      · simp [hc2] at h2
    · simp [hc1] at h1

/-- Witness for `C6_outlier_flags_iff_and_exclusive` on a one-group summary
with multiplier 1.5: the single group is flagged neither low nor high. -/
theorem C6_outlier_flags_iff_and_exclusive_witness :
    ¬ (({ sampleCityRow with out_low := some 0, out_high := some 0 } :
          CityRow).out_low = some 1
        ∧ ({ sampleCityRow with out_low := some 0, out_high := some 0 } :
          CityRow).out_high = some 1) := by
  have hq : quantileLin ([sampleCityRow].map (fun r => (r.total : ℚ))) (1 / 4)
      = 3 := by
    norm_num [quantileLin, interpAt, List.insertionSort, List.orderedInsert,
      sampleCityRow]
  have hq3 : quantileLin ([sampleCityRow].map (fun r => (r.total : ℚ))) (3 / 4)
      = 3 := by
    norm_num [quantileLin, interpAt, List.insertionSort, List.orderedInsert,
      sampleCityRow]
  have hmem : ({ sampleCityRow with out_low := some 0, out_high := some 0 } :
      CityRow) ∈ flag_outliersK (fun r => (r.total : ℚ)) (3 / 2) [sampleCityRow] := by
    have hflag : flag_outliersK (fun r => (r.total : ℚ)) (3 / 2) [sampleCityRow] =
        [{ sampleCityRow with out_low := some 0, out_high := some 0 }] := by
      norm_num [flag_outliersK, quantileLin, interpAt, List.insertionSort,
        List.orderedInsert, sampleCityRow]
    rw [hflag]
    exact List.mem_singleton.mpr rfl
  exact (C6_outlier_flags_iff_and_exclusive (3 / 2) [sampleCityRow] (by norm_num)
    _ hmem).2.2
